import Mathlib

/-!
# Verification of the library loan-tracking subsystem

Shallow embedding of the loan lifecycle, inventory counter, notification
dispatcher and overdue scanner of the `django-library-tracking-system`
repository (`library/views.py`, `library/tasks.py`, `library_system/celery.py`),
together with proofs and refutations of the specification's claims.

Conventions of the embedding:
* Calendar dates are day numbers (`Nat`); `timezone.now()` is a `DateTime`
  carrying the day together with the seconds elapsed within the day, so that
  `timezone.now().date()` is the `day` projection.
* Each Django ORM statement (`get`, `create`, `filter(...).update(...)`)
  becomes an explicit function on a `State` record holding the stored rows.
  `filter(pk=..).update(..)` is a single autocommitted write; the source uses
  no `transaction.atomic` block, so each write is its own observable step.
* Fallible paths return an explicit response constructor; an uncaught Python
  exception (e.g. `TypeError`, `MultipleObjectsReturned`) is its own
  constructor, distinct from the handled error responses.
-/

namespace Library

/-- `django.contrib.auth.models.User`: the fields the subsystem reads. -/
structure User where
  username : String
  email : String
  deriving DecidableEq

/-- `library.models.Member`. Modelled from the spec: `models.py` is not part
of the sources; the spec's data model gives a member an identifier and a
contact address reached through the linked auth user (`member.user.email`).
The scanner explicitly guards against a missing linked user
(`if not loan.member or not loan.member.user`), hence the `Option`. -/
structure Member where
  id : Nat
  user : Option User
  deriving DecidableEq

/-- `library.models.Book`. Modelled from the spec: identifier, title,
total copies, available copies. `available_copies` is an integer column
mutated by `F`-expression arithmetic, so it is embedded as `Int`. -/
structure Book where
  id : Nat
  title : String
  total_copies : Int
  available_copies : Int
  deriving DecidableEq

/-- `library.models.Loan`. Modelled from the spec: identifier, book and
member references, loan date, due date, returned flag, return date (null
while open). The spec fixes the creation defaults `returned = false` and
`return_date = null`; `views.py` passes only `loan_date` and `due_date` to
`Loan.objects.create`, the rest coming from these model defaults. Date
columns hold calendar dates (the spec computes `now.date() − due_date`),
embedded as day numbers. -/
structure Loan where
  id : Nat
  book_id : Nat
  member_id : Nat
  loan_date : Nat
  due_date : Nat
  is_returned : Bool
  return_date : Option Nat
  deriving DecidableEq

/-- The persistent store plus the notification queue: the rows of the three
tables the subsystem touches, the primary-key sequence for loans, and the
list of loan ids handed to `send_loan_notification.delay` (the dispatch
queue, in enqueue order). -/
structure State where
  books : List Book
  members : List Member
  loans : List Loan
  nextLoanId : Nat
  queue : List Nat
  deriving DecidableEq

/-- `timezone.now()`: an instant, as the calendar day plus the seconds
elapsed within that day. `.date()` is the `day` field. -/
structure DateTime where
  day : Nat
  secs : Nat
  deriving DecidableEq

/-- A Python date-or-datetime value, for embedding comparisons between the
two: Python raises `TypeError` when a `datetime.date` is compared with a
`datetime.datetime`. -/
inductive PyTime
  | date (day : Nat)
  | datetime (day : Nat) (secs : Nat)
  deriving DecidableEq

/-- Python `<` on date/datetime values: defined within each kind,
`TypeError` (the `.error` case) across kinds. -/
def pyLt : PyTime → PyTime → Except Unit Bool
  | .date a, .date b => .ok (decide (a < b))
  | .datetime a s, .datetime b t => .ok (decide (a < b ∨ (a = b ∧ s < t)))
  | _, _ => .error ()

/-! ## ORM primitives -/

/-- `Book.objects.get(pk=pk)`. -/
def findBook (st : State) (pk : Nat) : Option Book :=
  st.books.find? (fun b => b.id = pk)

/-- `Member.objects.get(id=member_id)`; a missing or absent `member_id`
matches no row. -/
def findMember (st : State) (member_id : Option Nat) : Option Member :=
  match member_id with
  | none => none
  | some m => st.members.find? (fun mb => mb.id = m)

/-- `Loan.objects.get(id=i)` / `self.get_object()` on the loan router. -/
def findLoan (st : State) (i : Nat) : Option Loan :=
  st.loans.find? (fun l => l.id = i)

/-- Outcome of `QuerySet.get(...)` on a filter: `DoesNotExist`, a unique
row, or `MultipleObjectsReturned`. -/
inductive GetOutcome (α : Type)
  | missing
  | one (a : α)
  | many
  deriving DecidableEq

/-- `Loan.objects.get(<p>)`: unique row matching `p`, else the
corresponding exception. -/
def getUnique (p : Loan → Bool) (ls : List Loan) : GetOutcome Loan :=
  match ls.filter p with
  | [] => .missing
  | [l] => .one l
  | _ :: _ :: _ => .many

/-- One autocommitted UPDATE/INSERT statement issued by the views. Each
constructor is one `.update(...)`/`.create(...)` call in the source. -/
inductive DBWrite
  | loanMarkReturned (loanId : Nat) (day : Nat)
  | bookIncrement (bookId : Nat)
  | bookDecrement (bookId : Nat)
  | loanInsert (l : Loan)
  | loanSetDueDate (loanId : Nat) (day : Nat)
  deriving DecidableEq

/-- Apply one statement to the store. Row updates go by primary key, as in
`Model.objects.filter(pk=..).update(..)`; increments/decrements are the
atomic `F('available_copies') ± 1` read-modify-writes. -/
def applyWrite (st : State) (w : DBWrite) : State :=
  match w with
  | .loanMarkReturned i day =>
      { st with loans := st.loans.map (fun l =>
          if l.id = i then { l with is_returned := true, return_date := some day } else l) }
  | .bookIncrement pk =>
      { st with books := st.books.map (fun b =>
          if b.id = pk then { b with available_copies := b.available_copies + 1 } else b) }
  | .bookDecrement pk =>
      { st with books := st.books.map (fun b =>
          if b.id = pk then { b with available_copies := b.available_copies - 1 } else b) }
  | .loanInsert l =>
      { st with loans := st.loans ++ [l], nextLoanId := st.nextLoanId + 1 }
  | .loanSetDueDate i day =>
      { st with loans := st.loans.map (fun l =>
          if l.id = i then { l with due_date := day } else l) }

/-! ## `BookViewSet.loan` (views.py:56-98) -/

/-- Response of the loan action. `bookMissing` is the uncaught
`Book.DoesNotExist` of the bare `Book.objects.get(pk=pk)`. -/
inductive LoanResp
  | bookMissing
  | noCopies
  | memberMissing
  | created
  deriving DecidableEq

/-- `BookViewSet.loan`: fetch the book; reject when
`available_copies < 1`; fetch the member by the request's `member_id`
(rejecting on `Member.DoesNotExist`); create the loan with
`loan_date = timezone.now().date()` and
`due_date = timezone.now().date() + timedelta(days=14)`; decrement the
book's counter with an `F`-expression; enqueue the notification task. -/
def loanAction (st : State) (now : DateTime) (pk : Nat) (member_id : Option Nat) :
    LoanResp × State :=
  match findBook st pk with
  | none => (.bookMissing, st)
  | some book =>
    if book.available_copies < 1 then
      (.noCopies, st)
    else
      match findMember st member_id with
      | none => (.memberMissing, st)
      | some member =>
        let newLoan : Loan :=
          { id := st.nextLoanId
            book_id := book.id
            member_id := member.id
            loan_date := now.day
            due_date := now.day + 14
            is_returned := false
            return_date := none }
        let st1 := applyWrite st (.loanInsert newLoan)
        let st2 := applyWrite st1 (.bookDecrement book.id)
        let st3 := { st2 with queue := st2.queue ++ [newLoan.id] }
        (.created, st3)

/-! ## `BookViewSet.return_book` (views.py:100-134) -/

/-- Response of the return action. `manyActiveLoans` is the uncaught
`MultipleObjectsReturned` of `Loan.objects.get(...)`. -/
inductive ReturnResp
  | bookMissing
  | noActiveLoan
  | manyActiveLoans
  | returned
  deriving DecidableEq

/-- The filter of `Loan.objects.get(book=book, member__id=member_id,
is_returned=False)`. -/
def activeLoanPred (pk : Nat) (member_id : Option Nat) (l : Loan) : Bool :=
  l.book_id = pk && (match member_id with
    | none => false
    | some m => l.member_id = m) && !l.is_returned

/-- The two UPDATE statements of the success path of `return_book`, in
source order: mark the loan returned, then increment the book counter.
They are two separate autocommitted statements — the source opens no
transaction around them. -/
def return_book_writes (loanId : Nat) (pk : Nat) (day : Nat) : List DBWrite :=
  [.loanMarkReturned loanId day, .bookIncrement pk]

/-- `BookViewSet.return_book`: fetch the book, locate the unique open loan
for (book, request member_id), mark it returned with
`return_date = timezone.now().date()`, then increment the book's counter. -/
def return_book (st : State) (now : DateTime) (pk : Nat) (member_id : Option Nat) :
    ReturnResp × State :=
  match findBook st pk with
  | none => (.bookMissing, st)
  | some book =>
    match getUnique (activeLoanPred pk member_id) st.loans with
    | .missing => (.noActiveLoan, st)
    | .many => (.manyActiveLoans, st)
    | .one loan =>
      (.returned, (return_book_writes loan.id book.id now.day).foldl applyWrite st)

/-! ## `LoanViewSet.extend_due_date` (views.py:186-229) -/

/-- A value read from `request.data.get('additional_days')` after JSON
parsing: absent/null, a JSON integer, a JSON float (carried as its
toward-zero truncation plus whether it was integral), a string spelling an
integer, or a string `int()` cannot parse. -/
inductive ReqValue
  | pyNone
  | pyInt (n : Int)
  | pyFloat (trunc : Int) (integral : Bool)
  | pyStrInt (n : Int)
  | pyStrBad
  deriving DecidableEq

/-- Python `int(x)`: `TypeError` on `None`, identity on ints, truncation
toward zero on floats, parse on strings (`ValueError` on a non-integer
spelling). The `.error` case is what the view's
`except (ValueError, TypeError)` catches. -/
def pyToInt : ReqValue → Except Unit Int
  | .pyNone => .error ()
  | .pyInt n => .ok n
  | .pyFloat t _ => .ok t
  | .pyStrInt n => .ok n
  | .pyStrBad => .error ()

/-- Response of the extend action. `typeErrorDateCompare` is the uncaught
`TypeError` Python raises at `loan.due_date < timezone.now()`: `due_date`
is a calendar date while `timezone.now()` is a datetime, and Python
refuses to order a `datetime.date` against a `datetime.datetime`. -/
inductive ExtendResp
  | loanMissing
  | alreadyReturned
  | typeErrorDateCompare
  | alreadyOverdue
  | daysNotPositive
  | invalidDays
  | extended
  deriving DecidableEq

/-- `LoanViewSet.extend_due_date`: fetch the loan; reject a returned loan;
compare `loan.due_date < timezone.now()` (a date/datetime comparison);
convert `additional_days` with `int()`, rejecting conversion errors and
values below 1; then `due_date += timedelta(days=additional_days)` and
save. -/
def extend_due_date (st : State) (now : DateTime) (pk : Nat) (additional_days : ReqValue) :
    ExtendResp × State :=
  match findLoan st pk with
  | none => (.loanMissing, st)
  | some loan =>
    if loan.is_returned then
      (.alreadyReturned, st)
    else
      match pyLt (.date loan.due_date) (.datetime now.day now.secs) with
      | .error _ => (.typeErrorDateCompare, st)
      | .ok true => (.alreadyOverdue, st)
      | .ok false =>
        match pyToInt additional_days with
        | .error _ => (.invalidDays, st)
        | .ok n =>
          if n < 1 then (.daysNotPositive, st)
          else (.extended, applyWrite st (.loanSetDueDate loan.id (loan.due_date + n.toNat)))

/-! ## `send_loan_notification` (tasks.py:13-33) -/

/-- Outcome of one `send_mail` call for a given recipient:
`fail_silently=False`, so a delivery failure raises an exception. -/
inductive MailResult
  | ok
  | retryableError
  deriving DecidableEq

/-- The options of the `@shared_task` decorator on
`send_loan_notification`. -/
structure TaskOptions where
  bind : Bool
  max_retries : Nat
  default_retry_delay : Nat
  deriving DecidableEq

/-- `bind=True`, `max_retries=3`, `default_retry_delay=60` from the
decorator; `autoretry_for=(Exception,)` makes every raising attempt
retryable. -/
def send_loan_notification_options : TaskOptions :=
  { bind := true, max_retries := 3, default_retry_delay := 60 }

/-- `def send_loan_notification(loan_id):` declares exactly one
parameter — no `self`, despite `bind=True`. -/
def send_loan_notification_paramCount : Nat := 1

/-- The body of `send_loan_notification`, assuming the arguments bound:
fetch the loan (`Loan.DoesNotExist` is swallowed by `pass`), read
`loan.member.user.email` and `loan.book.title` (an absent row raises),
then `send_mail` (raising on failure). Returns (raised?, number of
`send_mail` invocations). -/
def send_loan_notification_body (st : State) (loan_id : Nat) (mail : MailResult) :
    Bool × Nat :=
  match findLoan st loan_id with
  | none => (false, 0)
  | some loan =>
    match (findMember st (some loan.member_id)).bind Member.user with
    | none => (true, 0)
    | some _ =>
      match findBook st loan.book_id with
      | none => (true, 0)
      | some _ =>
        match mail with
        | .ok => (false, 1)
        | .retryableError => (true, 1)

/-- One execution attempt of the task. Celery binds the message's
positional arguments to the task function; `bind=True` prepends the task
instance, and Python raises `TypeError` before the body runs when the
argument count does not match the function's parameters. -/
def taskAttempt (st : State) (loan_id : Nat) (mail : MailResult) : Bool × Nat :=
  let argCount := (if send_loan_notification_options.bind then 1 else 0) + 1
  if argCount = send_loan_notification_paramCount then
    send_loan_notification_body st loan_id mail
  else
    (true, 0)

/-- What one queued task message produced once the worker is done with it:
how many execution attempts ran, how many `send_mail` calls happened, the
start time of each attempt (seconds after the first), and whether the task
ultimately succeeded. A final failure is logged by the worker and goes
nowhere else. -/
structure DispatchReport where
  taskAttempts : Nat
  mailSends : Nat
  attemptTimes : List Nat
  delivered : Bool
  deriving DecidableEq

/-- Celery's autoretry loop: run the attempt; on an exception covered by
`autoretry_for`, re-run after `delay` seconds while retries remain.
`attempt` takes the attempt index (the delivery outcome may vary between
attempts). -/
def celeryRunGo (attempt : Nat → Bool × Nat) (delay : Nat) :
    Nat → Nat → Nat → Nat → List Nat → DispatchReport
  | retriesLeft, k, sends, time, times =>
    let r := attempt k
    if r.1 = false then
      ⟨k + 1, sends + r.2, times ++ [time], true⟩
    else
      match retriesLeft with
      | 0 => ⟨k + 1, sends + r.2, times ++ [time], false⟩
      | rl + 1 =>
          celeryRunGo attempt delay rl (k + 1) (sends + r.2) (time + delay) (times ++ [time])

/-- Full processing of one `send_loan_notification.delay(loan_id)`
message: attempts with the decorator's retry policy. `mail k` is the mail
collaborator's outcome at attempt `k`. -/
def send_loan_notification_dispatch (st : State) (loan_id : Nat) (mail : Nat → MailResult) :
    DispatchReport :=
  celeryRunGo (fun k => taskAttempt st loan_id (mail k))
    send_loan_notification_options.default_retry_delay
    send_loan_notification_options.max_retries 0 0 0 []

/-! ## `check_overdue_loans` (tasks.py:36-91) -/

/-- The filter `Loan.objects.filter(due_date__lt=now, is_returned=False)`
with `now = timezone.now().date()`. -/
def overduePred (today : Nat) (l : Loan) : Bool :=
  decide (l.due_date < today) && !l.is_returned

/-- The queryset the scanner iterates. -/
def overdueSelection (st : State) (now : DateTime) : List Loan :=
  st.loans.filter (overduePred now.day)

/-- What the task returns, plus the per-loan success log lines
(`"Overdue notification sent for loan {id}"`) as the list of loan ids in
send order. -/
structure ScanResult where
  total_overdue_loans : Nat
  notifications_sent : Nat
  sentLog : List Nat
  deriving DecidableEq

/-- The body of the scanner's `for` loop for one loan: skip (with a
warning) when the member, its user, or the email address is missing;
otherwise `send_mail`, counting a success and catching any delivery
exception so the loop continues. -/
def scanProcess (st : State) (mail : Nat → MailResult) (acc : Nat × List Nat) (l : Loan) :
    Nat × List Nat :=
  match findMember st (some l.member_id) with
  | none => acc
  | some m =>
    match m.user with
    | none => acc
    | some u =>
      if u.email = "" then acc
      else
        match mail l.id with
        | .ok => (acc.1 + 1, acc.2 ++ [l.id])
        | .retryableError => acc

/-- `check_overdue_loans`: select the overdue unreturned loans, walk them
with `scanProcess`, and report `total_overdue_loans` (the queryset count)
and `notifications_sent`. -/
def check_overdue_loans (st : State) (now : DateTime) (mail : Nat → MailResult) : ScanResult :=
  let overdue := overdueSelection st now
  let r := overdue.foldl (scanProcess st mail) (0, [])
  ⟨overdue.length, r.1, r.2⟩

/-- The validation the loop body applies before sending for one loan. -/
def scanValid (st : State) (l : Loan) : Bool :=
  match findMember st (some l.member_id) with
  | none => false
  | some m =>
    match m.user with
    | none => false
    | some u => !(u.email = "")

/-! ## Beat schedule (library_system/celery.py:11-16) -/

/-- One entry of `app.conf.beat_schedule`: its key, the task name it
invokes, and the `crontab(hour, minute)` firing time. -/
structure BeatEntry where
  name : String
  task : String
  hour : Nat
  minute : Nat
  deriving DecidableEq

/-- The configured schedule: a single entry, daily at 00:00, naming
`library.tasks.send_overdue_notification`. -/
def beat_schedule : List BeatEntry :=
  [{ name := "send-overdue-notifications"
     task := "library.tasks.send_overdue_notification"
     hour := 0
     minute := 0 }]

/-- The tasks `library/tasks.py` actually defines (`@shared_task`
registers a task under its dotted module path). -/
def registered_tasks : List String :=
  ["library.tasks.send_loan_notification", "library.tasks.check_overdue_loans"]

/-! ## Operation sequences -/

/-- One API-level operation of the lifecycle subsystem, carrying the
`timezone.now()` instant at which it executes. -/
inductive Op
  | createLoan (now : DateTime) (pk : Nat) (member_id : Option Nat)
  | returnLoan (now : DateTime) (pk : Nat) (member_id : Option Nat)
  | extendLoan (now : DateTime) (loanId : Nat) (days : ReqValue)

/-- The state after one operation. -/
def step (st : State) : Op → State
  | .createLoan now pk m => (loanAction st now pk m).2
  | .returnLoan now pk m => (return_book st now pk m).2
  | .extendLoan now i d => (extend_due_date st now i d).2

/-- The state after a sequence of operations. -/
def runOps (st : State) (ops : List Op) : State :=
  ops.foldl step st

/-- The calendar day at which an operation runs. -/
def opDay : Op → Nat
  | .createLoan now _ _ => now.day
  | .returnLoan now _ _ => now.day
  | .extendLoan now _ _ => now.day

/-- An operation of the claimed conservation sequence: a loan or return on
the book under scrutiny. -/
def opOnBook (pk : Nat) : Op → Prop
  | .createLoan _ pk' _ => pk' = pk
  | .returnLoan _ pk' _ => pk' = pk
  | .extendLoan _ _ _ => False

instance (pk : Nat) (op : Op) : Decidable (opOnBook pk op) := by
  cases op <;> simp [opOnBook] <;> infer_instance

/-! ## Invariants -/

/-- Well-formed store: loan primary keys are distinct and below the
primary-key sequence value — what the database's key generation
guarantees. -/
def WF (st : State) : Prop :=
  (st.loans.map Loan.id).Nodup ∧ ∀ l ∈ st.loans, l.id < st.nextLoanId

instance (st : State) : Decidable (WF st) := by
  unfold WF; infer_instance

/-- Number of open (unreturned) loans stored for a book. -/
def openCount (st : State) (pk : Nat) : Nat :=
  st.loans.countP (fun l => l.book_id = pk && !l.is_returned)

/-- One book row satisfies conservation against a given total and
open-loan count: its counter equals total minus the open loans, within the
`[0, total]` range. -/
def bookOKb (total : Int) (opened : Nat) (b : Book) : Bool :=
  decide (b.total_copies = total) &&
  decide (b.available_copies = total - opened) &&
  decide (0 ≤ b.available_copies) &&
  decide (b.available_copies ≤ b.total_copies)

/-- Inventory conservation for one book: the stored row exists and
satisfies `bookOKb` against the store's open-loan count. -/
def bookConservedB (st : State) (pk : Nat) (total : Int) : Bool :=
  ((findBook st pk).map (bookOKb total (openCount st pk))).getD false

/-- Loan state-machine validity at a point where the current day is `t`:
a returned loan has a return date not before its loan date, an open loan
has none, and the loan was taken out on or before `t`. -/
def loanConsistentB (t : Nat) (l : Loan) : Bool :=
  (if l.is_returned then
     match l.return_date with
     | some d => decide (l.loan_date ≤ d)
     | none => false
   else decide (l.return_date = none)) && decide (l.loan_date ≤ t)

/-- All stored loans are valid at day `t`. -/
def StateConsistent (st : State) (t : Nat) : Prop :=
  ∀ l ∈ st.loans, loanConsistentB t l = true

instance (st : State) (t : Nat) : Decidable (StateConsistent st t) := by
  unfold StateConsistent; infer_instance

/-- The day of the last operation of a sequence (`t` for the empty one). -/
def lastDay (t : Nat) (ops : List Op) : Nat :=
  ops.foldl (fun _ op => opDay op) t

/-! ## List lemmas -/

/-- `find?` commutes with a map that does not move the predicate. -/
theorem find?_map_comm {α : Type} (g : α → α) (p : α → Bool)
    (h : ∀ x, p (g x) = p x) (xs : List α) :
    (xs.map g).find? p = (xs.find? p).map g := by
  induction xs with
  | nil => rfl
  | cons x xs ih =>
    by_cases hx : p x = true
    · rw [List.map_cons, List.find?_cons_of_pos _ (by rw [h x]; exact hx),
        List.find?_cons_of_pos _ hx, Option.map_some']
    · rw [List.map_cons, List.find?_cons_of_neg _ (by rw [h x]; simpa using hx),
        List.find?_cons_of_neg _ (by simpa using hx), ih]

/-- A keyed update leaves the key list untouched. -/
theorem map_id_updIf (f : Loan → Loan) (hf : ∀ x, (f x).id = x.id) (i : Nat)
    (xs : List Loan) :
    (xs.map (fun x => if x.id = i then f x else x)).map Loan.id = xs.map Loan.id := by
  rw [List.map_map]
  apply List.map_congr_left
  intro a _
  by_cases h : a.id = i <;> simp [h, hf]

/-- With distinct keys, updating the row keyed `i` changes `countP` by
swapping the matched row's contribution for its update's. -/
theorem countP_map_updIf (q : Loan → Bool) (f : Loan → Loan) (i : Nat)
    (xs : List Loan) (hnd : (xs.map Loan.id).Nodup)
    (l : Loan) (hl : l ∈ xs) (hi : l.id = i) :
    (xs.map (fun x => if x.id = i then f x else x)).countP q
        + (if q l then 1 else 0)
      = xs.countP q + (if q (f l) then 1 else 0) := by
  induction xs with
  | nil => cases hl
  | cons x xs ih =>
    rw [List.map_cons, List.nodup_cons] at hnd
    obtain ⟨hx_notin, hnd'⟩ := hnd
    by_cases hxi : x.id = i
    · have hlx : l = x := by
        rcases List.mem_cons.mp hl with h | h
        · exact h
        · have hlid : l.id ∈ xs.map Loan.id := List.mem_map.mpr ⟨l, h, rfl⟩
          rw [hi, ← hxi] at hlid
          exact absurd hlid hx_notin
      have htail : xs.map (fun x => if x.id = i then f x else x) = xs := by
        have h1 : xs.map (fun x => if x.id = i then f x else x) = xs.map id := by
          apply List.map_congr_left
          intro y hy
          have hyne : y.id ≠ i := by
            intro hyi
            exact hx_notin (by rw [hxi, ← hyi]; exact List.mem_map.mpr ⟨y, hy, rfl⟩)
          simp [hyne]
        rw [h1, List.map_id]
      subst hlx
      rw [List.map_cons, if_pos hxi, htail, List.countP_cons, List.countP_cons]
      omega
    · have hlx : l ≠ x := fun h => hxi (h ▸ hi)
      have hl' : l ∈ xs := by
        rcases List.mem_cons.mp hl with h | h
        · exact absurd h hlx
        · exact h
      rw [List.map_cons, if_neg hxi, List.countP_cons, List.countP_cons]
      have := ih hnd' hl'
      omega

/-- With distinct keys, `find?` by the key of a member returns that
member. -/
theorem find?_key_self (xs : List Loan) (hnd : (xs.map Loan.id).Nodup)
    (l : Loan) (hl : l ∈ xs) :
    xs.find? (fun x => x.id = l.id) = some l := by
  induction xs with
  | nil => cases hl
  | cons x xs ih =>
    rw [List.map_cons, List.nodup_cons] at hnd
    obtain ⟨hx_notin, hnd'⟩ := hnd
    by_cases hx : x.id = l.id
    · have hlx : l = x := by
        rcases List.mem_cons.mp hl with h | h
        · exact h
        · rw [hx] at hx_notin
          exact absurd (List.mem_map.mpr ⟨l, h, rfl⟩) hx_notin
      rw [List.find?_cons_of_pos _ (by simp [hx]), hlx]
    · have hl' : l ∈ xs := by
        rcases List.mem_cons.mp hl with h | h
        · subst h; exact absurd rfl hx
        · exact h
      rw [List.find?_cons_of_neg _ (by simpa using hx), ih hnd' hl']

/-- The unique row `Loan.objects.get` returns matches the filter and is
stored. -/
theorem getUnique_one_mem {p : Loan → Bool} {xs : List Loan} {l : Loan}
    (h : getUnique p xs = .one l) : l ∈ xs ∧ p l = true := by
  unfold getUnique at h
  rcases hf : xs.filter p with _ | ⟨a, _ | ⟨b, t⟩⟩ <;> rw [hf] at h
  · cases h
  · cases h
    have := List.mem_filter.mp (hf ▸ List.mem_singleton.mpr rfl)
    exact this
  · cases h

/-! ## Effect of single statements on queries -/

/-- Decrementing a book's counter, seen through `findBook`. -/
theorem findBook_after_dec (st : State) (j pk : Nat) :
    findBook (applyWrite st (.bookDecrement j)) pk
      = (findBook st pk).map (fun b =>
          if b.id = j then { b with available_copies := b.available_copies - 1 } else b) := by
  apply find?_map_comm
  intro b
  by_cases h : b.id = j <;> simp [h]

/-- Incrementing a book's counter, seen through `findBook`. -/
theorem findBook_after_inc (st : State) (j pk : Nat) :
    findBook (applyWrite st (.bookIncrement j)) pk
      = (findBook st pk).map (fun b =>
          if b.id = j then { b with available_copies := b.available_copies + 1 } else b) := by
  apply find?_map_comm
  intro b
  by_cases h : b.id = j <;> simp [h]

/-- Marking a loan returned, seen through `findLoan`. -/
theorem findLoan_after_mark (st : State) (i day j : Nat) :
    findLoan (applyWrite st (.loanMarkReturned i day)) j
      = (findLoan st j).map (fun l =>
          if l.id = i then { l with is_returned := true, return_date := some day } else l) := by
  apply find?_map_comm
  intro l
  by_cases h : l.id = i <;> simp [h]

/-- Inserting a loan adds its open-loan contribution. -/
theorem openCount_insert (st : State) (l : Loan) (pk : Nat) :
    openCount (applyWrite st (.loanInsert l)) pk
      = openCount st pk + (if l.book_id = pk && !l.is_returned then 1 else 0) := by
  unfold openCount applyWrite
  rw [List.countP_append]
  simp [List.countP_cons]

/-- Marking the stored open loan `l` returned removes exactly one open
loan of its book. -/
theorem openCount_mark (st : State) (day pk : Nat)
    (hnd : (st.loans.map Loan.id).Nodup)
    (l : Loan) (hl : l ∈ st.loans)
    (hq : l.book_id = pk) (hr : l.is_returned = false) :
    openCount (applyWrite st (.loanMarkReturned l.id day)) pk + 1 = openCount st pk := by
  have h := countP_map_updIf (fun x => x.book_id = pk && !x.is_returned)
      (fun x => { x with is_returned := true, return_date := some day })
      l.id st.loans hnd l hl rfl
  simp only [hq, hr] at h
  simp at h
  simpa [openCount, applyWrite] using h

/-! ## Preservation of well-formedness -/

/-- Inserting a loan keyed by the sequence value keeps the store
well-formed. -/
theorem WF_insert (st : State) (l : Loan) (hl : l.id = st.nextLoanId)
    (h : WF st) : WF (applyWrite st (.loanInsert l)) := by
  obtain ⟨hnd, hlt⟩ := h
  constructor
  · show ((st.loans ++ [l]).map Loan.id).Nodup
    rw [List.map_append, List.nodup_append]
    refine ⟨hnd, List.nodup_singleton _, ?_⟩
    intro a ha hb
    rw [List.map_singleton, List.mem_singleton] at hb
    obtain ⟨x, hx, rfl⟩ := List.mem_map.mp ha
    have h1 := hlt x hx
    rw [hl] at hb
    omega
  · show ∀ x ∈ st.loans ++ [l], x.id < st.nextLoanId + 1
    intro x hx
    rcases List.mem_append.mp hx with h1 | h1
    · exact Nat.lt_succ_of_lt (hlt x h1)
    · rw [List.mem_singleton] at h1
      subst h1
      omega

/-- A keyed loan update keeps the store well-formed. -/
theorem WF_mapUpd (st : State) (f : Loan → Loan) (hf : ∀ x, (f x).id = x.id)
    (i : Nat) (h : WF st) :
    WF { st with loans := st.loans.map (fun x => if x.id = i then f x else x) } := by
  obtain ⟨hnd, hlt⟩ := h
  constructor
  · show ((st.loans.map fun x => if x.id = i then f x else x).map Loan.id).Nodup
    rw [map_id_updIf f hf i]
    exact hnd
  · intro x hx
    obtain ⟨y, hy, rfl⟩ := List.mem_map.mp hx
    by_cases hyi : y.id = i
    · simpa [hyi, hf] using hlt y hy
    · simpa [hyi] using hlt y hy

/-! ## Branch characterizations of the three actions -/

/-- The new `Loan` row `BookViewSet.loan` inserts. -/
def mkLoan (st : State) (now : DateTime) (book : Book) (member : Member) : Loan :=
  { id := st.nextLoanId
    book_id := book.id
    member_id := member.id
    loan_date := now.day
    due_date := now.day + 14
    is_returned := false
    return_date := none }

theorem loanAction_noBook (st : State) (now : DateTime) (pk : Nat) (m : Option Nat)
    (hfb : findBook st pk = none) :
    loanAction st now pk m = (.bookMissing, st) := by
  unfold loanAction
  rw [hfb]

theorem loanAction_outOfStock (st : State) (now : DateTime) (pk : Nat) (m : Option Nat)
    (book : Book) (hfb : findBook st pk = some book)
    (hav : book.available_copies < 1) :
    loanAction st now pk m = (.noCopies, st) := by
  unfold loanAction
  rw [hfb]
  simp [hav]

theorem loanAction_noMember (st : State) (now : DateTime) (pk : Nat) (m : Option Nat)
    (book : Book) (hfb : findBook st pk = some book)
    (hav : ¬ book.available_copies < 1) (hm : findMember st m = none) :
    loanAction st now pk m = (.memberMissing, st) := by
  unfold loanAction
  rw [hfb]
  simp [hav, hm]

theorem loanAction_success (st : State) (now : DateTime) (pk : Nat) (m : Option Nat)
    (book : Book) (member : Member) (hfb : findBook st pk = some book)
    (hav : ¬ book.available_copies < 1) (hm : findMember st m = some member) :
    loanAction st now pk m =
      (.created,
        { books := st.books.map (fun b =>
            if b.id = book.id then { b with available_copies := b.available_copies - 1 } else b)
          members := st.members
          loans := st.loans ++ [mkLoan st now book member]
          nextLoanId := st.nextLoanId + 1
          queue := st.queue ++ [st.nextLoanId] }) := by
  unfold loanAction
  rw [hfb]
  simp [hav, hm, applyWrite, mkLoan]

theorem return_book_noBook (st : State) (now : DateTime) (pk : Nat) (m : Option Nat)
    (hfb : findBook st pk = none) :
    return_book st now pk m = (.bookMissing, st) := by
  unfold return_book
  rw [hfb]

theorem return_book_noActive (st : State) (now : DateTime) (pk : Nat) (m : Option Nat)
    (book : Book) (hfb : findBook st pk = some book)
    (hg : getUnique (activeLoanPred pk m) st.loans = .missing) :
    return_book st now pk m = (.noActiveLoan, st) := by
  unfold return_book
  rw [hfb, hg]

theorem return_book_many (st : State) (now : DateTime) (pk : Nat) (m : Option Nat)
    (book : Book) (hfb : findBook st pk = some book)
    (hg : getUnique (activeLoanPred pk m) st.loans = .many) :
    return_book st now pk m = (.manyActiveLoans, st) := by
  unfold return_book
  rw [hfb, hg]

theorem return_book_success (st : State) (now : DateTime) (pk : Nat) (m : Option Nat)
    (book : Book) (loan : Loan) (hfb : findBook st pk = some book)
    (hg : getUnique (activeLoanPred pk m) st.loans = .one loan) :
    return_book st now pk m =
      (.returned,
        { books := st.books.map (fun b =>
            if b.id = book.id then { b with available_copies := b.available_copies + 1 } else b)
          members := st.members
          loans := st.loans.map (fun l =>
            if l.id = loan.id then { l with is_returned := true, return_date := some now.day } else l)
          nextLoanId := st.nextLoanId
          queue := st.queue }) := by
  unfold return_book
  rw [hfb, hg]
  simp [return_book_writes, applyWrite]

theorem extend_noLoan (st : State) (now : DateTime) (i : Nat) (days : ReqValue)
    (hfl : findLoan st i = none) :
    extend_due_date st now i days = (.loanMissing, st) := by
  unfold extend_due_date
  rw [hfl]

theorem extend_returned (st : State) (now : DateTime) (i : Nat) (days : ReqValue)
    (loan : Loan) (hfl : findLoan st i = some loan) (hr : loan.is_returned = true) :
    extend_due_date st now i days = (.alreadyReturned, st) := by
  unfold extend_due_date
  rw [hfl]
  simp [hr]

/-- On every loan that is not yet returned, the view's overdue test
`loan.due_date < timezone.now()` compares a calendar date against a
datetime, which Python rejects with `TypeError`: the request dies with an
uncaught exception, whatever `additional_days` was, and the store is
untouched. -/
theorem extend_open_typeerror (st : State) (now : DateTime) (i : Nat) (days : ReqValue)
    (loan : Loan) (hfl : findLoan st i = some loan) (hr : loan.is_returned = false) :
    extend_due_date st now i days = (.typeErrorDateCompare, st) := by
  unfold extend_due_date
  rw [hfl]
  simp [hr, pyLt]

/-- Every operation keeps the store well-formed. -/
theorem wf_step (st : State) (op : Op) (h : WF st) : WF (step st op) := by
  cases op with
  | createLoan now pk m =>
    simp only [step]
    rcases hfb : findBook st pk with _ | book
    · rw [loanAction_noBook st now pk m hfb]; exact h
    · by_cases hav : book.available_copies < 1
      · rw [loanAction_outOfStock st now pk m book hfb hav]; exact h
      · rcases hm : findMember st m with _ | member
        · rw [loanAction_noMember st now pk m book hfb hav hm]; exact h
        · rw [loanAction_success st now pk m book member hfb hav hm]
          exact WF_insert st (mkLoan st now book member) rfl h
  | returnLoan now pk m =>
    simp only [step]
    rcases hfb : findBook st pk with _ | book
    · rw [return_book_noBook st now pk m hfb]; exact h
    · rcases hg : getUnique (activeLoanPred pk m) st.loans with _ | loan | _
      · rw [return_book_noActive st now pk m book hfb hg]; exact h
      · rw [return_book_success st now pk m book loan hfb hg]
        exact WF_mapUpd st
          (fun l => { l with is_returned := true, return_date := some now.day })
          (fun _ => rfl) loan.id h
      · rw [return_book_many st now pk m book hfb hg]; exact h
  | extendLoan now i days =>
    simp only [step]
    rcases hfl : findLoan st i with _ | loan
    · rw [extend_noLoan st now i days hfl]; exact h
    · cases hr : loan.is_returned with
      | true => rw [extend_returned st now i days loan hfl hr]; exact h
      | false => rw [extend_open_typeerror st now i days loan hfl hr]; exact h

/-! ## Preservation of inventory conservation -/

/-- A loan or return on the tracked book preserves conservation. -/
theorem conserved_step (st : State) (op : Op) (pk : Nat) (total : Int)
    (hop : opOnBook pk op) (hwf : WF st)
    (hc : bookConservedB st pk total = true) :
    bookConservedB (step st op) pk total = true := by
  cases op with
  | createLoan now pk' m =>
    have hpk : pk' = pk := hop
    subst hpk
    simp only [step]
    rcases hfb : findBook st pk' with _ | book
    · rw [loanAction_noBook st now pk' m hfb]; exact hc
    · have hid : book.id = pk' := by simpa using List.find?_some hfb
      by_cases hav : book.available_copies < 1
      · rw [loanAction_outOfStock st now pk' m book hfb hav]; exact hc
      · rcases hm : findMember st m with _ | member
        · rw [loanAction_noMember st now pk' m book hfb hav hm]; exact hc
        · rw [loanAction_success st now pk' m book member hfb hav hm]
          have hfb2 : findBook (loanAction st now pk' m).2 pk'
              = some { book with available_copies := book.available_copies - 1 } := by
            rw [loanAction_success st now pk' m book member hfb hav hm]
            show findBook (applyWrite
              (applyWrite st (.loanInsert (mkLoan st now book member)))
              (.bookDecrement book.id)) pk' = _
            rw [findBook_after_dec]
            have h1 : findBook (applyWrite st (.loanInsert (mkLoan st now book member))) pk'
                = findBook st pk' := rfl
            rw [h1, hfb]
            simp [hid]
          rw [loanAction_success st now pk' m book member hfb hav hm] at hfb2
          have hop2 : openCount
              ({ books := st.books.map (fun b =>
                    if b.id = book.id then { b with available_copies := b.available_copies - 1 } else b)
                 members := st.members
                 loans := st.loans ++ [mkLoan st now book member]
                 nextLoanId := st.nextLoanId + 1
                 queue := st.queue ++ [st.nextLoanId] } : State) pk'
              = openCount st pk' + 1 := by
            show (st.loans ++ [mkLoan st now book member]).countP _ = _
            rw [List.countP_append]
            simp [mkLoan, hid, openCount]
          unfold bookConservedB at hc ⊢
          rw [hfb] at hc
          rw [hfb2, hop2]
          simp only [Option.map_some', Option.getD_some, bookOKb, Bool.and_eq_true,
            decide_eq_true_eq] at hc ⊢
          push_cast
          omega
  | returnLoan now pk' m =>
    have hpk : pk' = pk := hop
    subst hpk
    simp only [step]
    rcases hfb : findBook st pk' with _ | book
    · rw [return_book_noBook st now pk' m hfb]; exact hc
    · have hid : book.id = pk' := by simpa using List.find?_some hfb
      rcases hg : getUnique (activeLoanPred pk' m) st.loans with _ | loan | _
      · rw [return_book_noActive st now pk' m book hfb hg]; exact hc
      · obtain ⟨hmem, hp⟩ := getUnique_one_mem hg
        have hp' := hp
        unfold activeLoanPred at hp'
        rw [Bool.and_eq_true, Bool.and_eq_true] at hp'
        obtain ⟨⟨hb, _⟩, hr⟩ := hp'
        have hlb : loan.book_id = pk' := by simpa using hb
        have hlr : loan.is_returned = false := by simpa using hr
        rw [return_book_success st now pk' m book loan hfb hg]
        have hfb2 : findBook
            ({ books := st.books.map (fun b =>
                  if b.id = book.id then { b with available_copies := b.available_copies + 1 } else b)
               members := st.members
               loans := st.loans.map (fun l =>
                  if l.id = loan.id then { l with is_returned := true, return_date := some now.day } else l)
               nextLoanId := st.nextLoanId
               queue := st.queue } : State) pk'
            = some { book with available_copies := book.available_copies + 1 } := by
          have h1 := findBook_after_inc
            { st with loans := st.loans.map (fun l =>
                if l.id = loan.id then { l with is_returned := true, return_date := some now.day } else l) }
            book.id pk'
          have h2 : findBook
              { st with loans := st.loans.map (fun l =>
                  if l.id = loan.id then { l with is_returned := true, return_date := some now.day } else l) }
              pk' = findBook st pk' := rfl
          rw [h2, hfb] at h1
          simp at h1
          exact h1
        have hop2 : openCount
            ({ books := st.books.map (fun b =>
                  if b.id = book.id then { b with available_copies := b.available_copies + 1 } else b)
               members := st.members
               loans := st.loans.map (fun l =>
                  if l.id = loan.id then { l with is_returned := true, return_date := some now.day } else l)
               nextLoanId := st.nextLoanId
               queue := st.queue } : State) pk' + 1
            = openCount st pk' := by
          have := openCount_mark st now.day pk' hwf.1 loan hmem hlb hlr
          simpa [openCount, applyWrite] using this
        unfold bookConservedB at hc ⊢
        rw [hfb] at hc
        rw [hfb2]
        rw [← hop2] at hc
        simp only [Option.map_some', Option.getD_some, bookOKb, Bool.and_eq_true,
          decide_eq_true_eq] at hc ⊢
        push_cast at hc
        omega
      · rw [return_book_many st now pk' m book hfb hg]; exact hc
  | extendLoan now i days => exact absurd hop (by simp [opOnBook])

/-- Conservation and well-formedness hold after every prefix of a
loan/return sequence on the tracked book. -/
theorem conserved_run (ops : List Op) (st : State) (pk : Nat) (total : Int)
    (hops : ∀ op ∈ ops, opOnBook pk op) (hwf : WF st)
    (hc : bookConservedB st pk total = true) :
    ∀ n, WF (runOps st (ops.take n))
      ∧ bookConservedB (runOps st (ops.take n)) pk total = true := by
  induction ops generalizing st with
  | nil => intro n; simpa [runOps] using ⟨hwf, hc⟩
  | cons op ops ih =>
    intro n
    cases n with
    | zero => simpa [runOps] using ⟨hwf, hc⟩
    | succ n =>
      have hop : opOnBook pk op := hops op (List.mem_cons_self op ops)
      have hops' : ∀ o ∈ ops, opOnBook pk o := fun o ho => hops o (List.mem_cons_of_mem op ho)
      have h1 : runOps st ((op :: ops).take (n + 1)) = runOps (step st op) (ops.take n) := rfl
      rw [h1]
      exact ih (step st op) hops' (wf_step st op hwf) (conserved_step st op pk total hop hwf hc) n

/-! ## Preservation of loan state-machine validity -/

/-- `loanConsistentB` weakens as the day advances. -/
theorem loanConsistentB_mono (t t' : Nat) (h : t ≤ t') (l : Loan)
    (hl : loanConsistentB t l = true) : loanConsistentB t' l = true := by
  unfold loanConsistentB at hl ⊢
  rw [Bool.and_eq_true] at hl ⊢
  refine ⟨hl.1, ?_⟩
  have := hl.2
  simp only [decide_eq_true_eq] at this ⊢
  omega

/-- `StateConsistent` weakens as the day advances. -/
theorem consistent_weaken (st : State) (t t' : Nat) (h : t ≤ t')
    (hc : StateConsistent st t) : StateConsistent st t' :=
  fun l hl => loanConsistentB_mono t t' h l (hc l hl)

/-- Every operation run on day `opDay op ≥ t` preserves loan
state-machine validity. -/
theorem consistent_step (st : State) (op : Op) (t : Nat)
    (hc : StateConsistent st t) (ht : t ≤ opDay op) :
    StateConsistent (step st op) (opDay op) := by
  cases op with
  | createLoan now pk m =>
    simp only [step, opDay] at *
    rcases hfb : findBook st pk with _ | book
    · rw [loanAction_noBook st now pk m hfb]; exact consistent_weaken st t now.day ht hc
    · by_cases hav : book.available_copies < 1
      · rw [loanAction_outOfStock st now pk m book hfb hav]
        exact consistent_weaken st t now.day ht hc
      · rcases hm : findMember st m with _ | member
        · rw [loanAction_noMember st now pk m book hfb hav hm]
          exact consistent_weaken st t now.day ht hc
        · rw [loanAction_success st now pk m book member hfb hav hm]
          intro l hl
          replace hl : l ∈ st.loans ++ [mkLoan st now book member] := hl
          rcases List.mem_append.mp hl with h1 | h1
          · exact loanConsistentB_mono t now.day ht l (hc l h1)
          · rw [List.mem_singleton] at h1
            subst h1
            simp [loanConsistentB, mkLoan]
  | returnLoan now pk m =>
    simp only [step, opDay] at *
    rcases hfb : findBook st pk with _ | book
    · rw [return_book_noBook st now pk m hfb]; exact consistent_weaken st t now.day ht hc
    · rcases hg : getUnique (activeLoanPred pk m) st.loans with _ | loan | _
      · rw [return_book_noActive st now pk m book hfb hg]
        exact consistent_weaken st t now.day ht hc
      · rw [return_book_success st now pk m book loan hfb hg]
        intro l' hl'
        replace hl' : l' ∈ st.loans.map (fun l =>
            if l.id = loan.id then { l with is_returned := true, return_date := some now.day } else l) := hl'
        obtain ⟨l, hl, rfl⟩ := List.mem_map.mp hl'
        have hcl := hc l hl
        by_cases hid : l.id = loan.id
        · rw [if_pos hid]
          unfold loanConsistentB at hcl ⊢
          rw [Bool.and_eq_true] at hcl
          have h2 := hcl.2
          simp only [decide_eq_true_eq] at h2
          simp only [Bool.and_eq_true, decide_eq_true_eq]
          exact ⟨by simp only [if_pos]; exact by simpa using Nat.le_trans h2 ht, by omega⟩
        · rw [if_neg hid]
          exact loanConsistentB_mono t now.day ht l hcl
      · rw [return_book_many st now pk m book hfb hg]
        exact consistent_weaken st t now.day ht hc
  | extendLoan now i days =>
    simp only [step, opDay] at *
    rcases hfl : findLoan st i with _ | loan
    · rw [extend_noLoan st now i days hfl]; exact consistent_weaken st t now.day ht hc
    · cases hr : loan.is_returned with
      | true =>
        rw [extend_returned st now i days loan hfl hr]
        exact consistent_weaken st t now.day ht hc
      | false =>
        rw [extend_open_typeerror st now i days loan hfl hr]
        exact consistent_weaken st t now.day ht hc

/-- Loan state-machine validity holds after every prefix of an operation
sequence run at non-decreasing days. -/
theorem consistent_run (ops : List Op) (st : State) (t : Nat)
    (hchain : List.Chain' (· ≤ ·) (t :: ops.map opDay))
    (hc : StateConsistent st t) :
    ∀ n, StateConsistent (runOps st (ops.take n)) (lastDay t (ops.take n)) := by
  induction ops generalizing st t with
  | nil =>
    intro n
    simpa [runOps, lastDay] using hc
  | cons op ops ih =>
    intro n
    cases n with
    | zero => simpa [runOps, lastDay] using hc
    | succ n =>
      rw [List.map_cons, List.chain'_cons] at hchain
      obtain ⟨hle, hchain'⟩ := hchain
      have h1 : runOps st ((op :: ops).take (n + 1)) = runOps (step st op) (ops.take n) := rfl
      have h2 : lastDay t ((op :: ops).take (n + 1)) = lastDay (opDay op) (ops.take n) := rfl
      rw [h1, h2]
      exact ih (step st op) (opDay op) hchain' (consistent_step st op t hc hle) n

/-! ## The scanner's loop, summarized -/

/-- One pass of the scanner's loop body either counts and logs a send (the
member, user and address are present and the mail went out) or leaves the
accumulator alone. -/
theorem scanProcess_eq (st : State) (mail : Nat → MailResult) (acc : Nat × List Nat)
    (l : Loan) :
    scanProcess st mail acc l
      = if scanValid st l && decide (mail l.id = .ok)
        then (acc.1 + 1, acc.2 ++ [l.id]) else acc := by
  rcases hm : findMember st (some l.member_id) with _ | m
  · simp [scanProcess, scanValid, hm]
  · rcases hu : m.user with _ | u
    · simp [scanProcess, scanValid, hm, hu]
    · by_cases he : u.email = ""
      · simp [scanProcess, scanValid, hm, hu, he]
      · rcases hml : mail l.id with _ | _
        · simp [scanProcess, scanValid, hm, hu, he, hml]
        · simp [scanProcess, scanValid, hm, hu, he, hml]

/-- The scanner's fold counts, and logs in order, exactly the valid loans
whose mail went out. -/
theorem scan_foldl (st : State) (mail : Nat → MailResult) (ls : List Loan)
    (n : Nat) (ids : List Nat) :
    ls.foldl (scanProcess st mail) (n, ids)
      = (n + (ls.filter (fun l => scanValid st l && decide (mail l.id = .ok))).length,
         ids ++ (ls.filter (fun l => scanValid st l && decide (mail l.id = .ok))).map Loan.id) := by
  induction ls generalizing n ids with
  | nil => simp
  | cons l ls ih =>
    rw [List.foldl_cons, scanProcess_eq]
    by_cases h : (scanValid st l && decide (mail l.id = .ok)) = true
    · rw [if_pos h, ih]
      have hf : (l :: ls).filter (fun l => scanValid st l && decide (mail l.id = .ok))
          = l :: ls.filter (fun l => scanValid st l && decide (mail l.id = .ok)) := by
        simp [List.filter_cons, h]
      rw [hf]
      refine Prod.ext ?_ ?_
      · show n + 1 + _ = n + _
        simp only [List.length_cons]
        omega
      · simp
    · rw [if_neg h, ih]
      have hf : (l :: ls).filter (fun l => scanValid st l && decide (mail l.id = .ok))
          = ls.filter (fun l => scanValid st l && decide (mail l.id = .ok)) := by
        simp [List.filter_cons, h]
      rw [hf]

/-- The scanner's report, in closed form: the count of selected loans and
the count and log of validated, successfully-mailed ones. -/
theorem check_overdue_loans_eq (st : State) (now : DateTime) (mail : Nat → MailResult) :
    check_overdue_loans st now mail
      = ⟨(overdueSelection st now).length,
         ((overdueSelection st now).filter
            (fun l => scanValid st l && decide (mail l.id = .ok))).length,
         ((overdueSelection st now).filter
            (fun l => scanValid st l && decide (mail l.id = .ok))).map Loan.id⟩ := by
  simp only [check_overdue_loans]
  rw [scan_foldl]
  simp

/-! ## Concrete fixtures -/

/-- A member's auth user with a working address. -/
def user1 : User := { username := "alice", email := "alice@example.com" }

/-- A fresh store: one book with all three copies on the shelf, one
member, no loans. -/
def demoState : State :=
  { books := [{ id := 1, title := "Dune", total_copies := 3, available_copies := 3 }]
    members := [{ id := 1, user := some user1 }]
    loans := []
    nextLoanId := 1
    queue := [] }

/-- The store after one loan of book 1 by member 1, taken on day 100. -/
def demoLoaned : State :=
  { books := [{ id := 1, title := "Dune", total_copies := 3, available_copies := 2 }]
    members := [{ id := 1, user := some user1 }]
    loans := [{ id := 1, book_id := 1, member_id := 1, loan_date := 100, due_date := 114,
                is_returned := false, return_date := none }]
    nextLoanId := 2
    queue := [1] }

/-- A store for the scanner: on day 10, loan 1 is due day 9 and open, loan
2 is due day 9 but returned, loan 3 is due day 11 and open. -/
def scanState : State :=
  { books := [{ id := 1, title := "Dune", total_copies := 3, available_copies := 1 }]
    members := [{ id := 1, user := some user1 },
                { id := 2, user := some { username := "bob", email := "bob@example.com" } },
                { id := 3, user := some { username := "carol", email := "carol@example.com" } }]
    loans := [{ id := 1, book_id := 1, member_id := 1, loan_date := 0, due_date := 9,
                is_returned := false, return_date := none },
              { id := 2, book_id := 1, member_id := 2, loan_date := 0, due_date := 9,
                is_returned := true, return_date := some 5 },
              { id := 3, book_id := 1, member_id := 3, loan_date := 0, due_date := 11,
                is_returned := false, return_date := none }]
    nextLoanId := 4
    queue := [] }

/-! ## Claims -/

/-- C1 (corrected): `CreateLoan` rejects with out-of-stock when
`available_copies < 1` and with a member-does-not-exist error when the
member is missing, both leaving the store unchanged; otherwise it
decrements the book's counter by exactly one, inserts a loan with
`loan_date = now`, `due_date = now + 14 days` (the view accepts no
duration input: the 14-day term is hardcoded), `returned = false` and no
return date, enqueues one `loan_created` notification for the new loan,
and responds with a success status (the created loan row is persisted but
not returned in the response body). -/
theorem claim1_create_loan (st : State) (now : DateTime) (pk : Nat) (m : Option Nat)
    (book : Book) (hfb : findBook st pk = some book) :
    (book.available_copies < 1 → loanAction st now pk m = (.noCopies, st)) ∧
    (¬ book.available_copies < 1 → findMember st m = none →
      loanAction st now pk m = (.memberMissing, st)) ∧
    (∀ member, ¬ book.available_copies < 1 → findMember st m = some member →
      (loanAction st now pk m).1 = .created ∧
      findBook (loanAction st now pk m).2 pk
        = some { book with available_copies := book.available_copies - 1 } ∧
      (loanAction st now pk m).2.loans = st.loans ++ [mkLoan st now book member] ∧
      (mkLoan st now book member).loan_date = now.day ∧
      (mkLoan st now book member).due_date = now.day + 14 ∧
      (mkLoan st now book member).is_returned = false ∧
      (mkLoan st now book member).return_date = none ∧
      (loanAction st now pk m).2.queue = st.queue ++ [(mkLoan st now book member).id]) := by
  have hid : book.id = pk := by simpa using List.find?_some hfb
  refine ⟨?_, ?_, ?_⟩
  · intro hav
    exact loanAction_outOfStock st now pk m book hfb hav
  · intro hav hm
    exact loanAction_noMember st now pk m book hfb hav hm
  · intro member hav hm
    rw [loanAction_success st now pk m book member hfb hav hm]
    refine ⟨rfl, ?_, rfl, rfl, rfl, rfl, rfl, rfl⟩
    have h1 : findBook
        ({ books := st.books.map (fun b =>
              if b.id = book.id then { b with available_copies := b.available_copies - 1 } else b)
           members := st.members
           loans := st.loans ++ [mkLoan st now book member]
           nextLoanId := st.nextLoanId + 1
           queue := st.queue ++ [st.nextLoanId] } : State) pk
        = (findBook st pk).map (fun b =>
            if b.id = book.id then { b with available_copies := b.available_copies - 1 } else b) := by
      exact find?_map_comm _ _ (fun b => by by_cases h : b.id = book.id <;> simp [h]) _
    rw [h1, hfb]
    simp

/-- C1 counterexample: at a concrete fresh store, requesting a 7-day loan
(durationDays = 7) succeeds but creates the loan with
`due_date = day 114 = now + 14`, not `now + 7 = 107`: no duration input
reaches the view, refuting `due_date = now + durationDays`. -/
theorem claim1_counterexample :
    (loanAction demoState ⟨100, 0⟩ 1 (some 1)).1 = .created ∧
    (loanAction demoState ⟨100, 0⟩ 1 (some 1)).2.loans.map Loan.due_date = [114] ∧
    ¬ (114 : Nat) = 100 + 7 := by
  decide

/-- C1 witness: the amended claim evaluated on the fresh store at day 100:
the loan succeeds, the counter drops from 3 to 2, and the stored loan runs
from day 100 to day 114 with the notification enqueued. -/
theorem claim1_create_loan_witness :
    (loanAction demoState ⟨100, 0⟩ 1 (some 1)).1 = .created ∧
    findBook (loanAction demoState ⟨100, 0⟩ 1 (some 1)).2 1
      = some { id := 1, title := "Dune", total_copies := 3, available_copies := 2 } ∧
    (loanAction demoState ⟨100, 0⟩ 1 (some 1)).2.queue = [1] := by
  have h := (claim1_create_loan demoState ⟨100, 0⟩ 1 (some 1)
      { id := 1, title := "Dune", total_copies := 3, available_copies := 3 } rfl).2.2
      { id := 1, user := some user1 } (by decide) rfl
  exact ⟨h.1, h.2.1, by decide⟩

/-- C2 (corrected): `ReturnLoan` fails with a no-active-loan error, the
store untouched, when no open loan exists for the (book, member) pair; on
success it sets `returned = true` and `return_date = now` on the unique
open loan and increments the book's counter — but as two separate
autocommitted UPDATE statements issued one after the other (the loan
update, then the counter increment), not as one atomic unit: the source
opens no transaction around them. -/
theorem claim2_return_loan (st : State) (now : DateTime) (pk : Nat) (m : Option Nat)
    (book : Book) (hfb : findBook st pk = some book) :
    (getUnique (activeLoanPred pk m) st.loans = .missing →
      return_book st now pk m = (.noActiveLoan, st)) ∧
    (∀ loan, WF st → getUnique (activeLoanPred pk m) st.loans = .one loan →
      return_book st now pk m
        = (.returned, (return_book_writes loan.id book.id now.day).foldl applyWrite st) ∧
      return_book_writes loan.id book.id now.day
        = [.loanMarkReturned loan.id now.day, .bookIncrement book.id] ∧
      findLoan (return_book st now pk m).2 loan.id
        = some { loan with is_returned := true, return_date := some now.day } ∧
      findBook (return_book st now pk m).2 pk
        = some { book with available_copies := book.available_copies + 1 }) := by
  have hid : book.id = pk := by simpa using List.find?_some hfb
  constructor
  · intro hg
    exact return_book_noActive st now pk m book hfb hg
  · intro loan hwf hg
    obtain ⟨hmem, _⟩ := getUnique_one_mem hg
    have hret : return_book st now pk m
        = (.returned, (return_book_writes loan.id book.id now.day).foldl applyWrite st) := by
      rw [return_book_success st now pk m book loan hfb hg]
      simp [return_book_writes, applyWrite]
    refine ⟨hret, rfl, ?_, ?_⟩
    · rw [return_book_success st now pk m book loan hfb hg]
      have h1 : findLoan
          ({ books := st.books.map (fun b =>
                if b.id = book.id then { b with available_copies := b.available_copies + 1 } else b)
             members := st.members
             loans := st.loans.map (fun l =>
                if l.id = loan.id then { l with is_returned := true, return_date := some now.day } else l)
             nextLoanId := st.nextLoanId
             queue := st.queue } : State) loan.id
          = (st.loans.find? (fun l => l.id = loan.id)).map (fun l =>
              if l.id = loan.id then { l with is_returned := true, return_date := some now.day } else l) := by
        exact find?_map_comm _ _ (fun l => by by_cases h : l.id = loan.id <;> simp [h]) _
      rw [h1, find?_key_self st.loans hwf.1 loan hmem]
      simp
    · rw [return_book_success st now pk m book loan hfb hg]
      have h1 : findBook
          ({ books := st.books.map (fun b =>
                if b.id = book.id then { b with available_copies := b.available_copies + 1 } else b)
             members := st.members
             loans := st.loans.map (fun l =>
                if l.id = loan.id then { l with is_returned := true, return_date := some now.day } else l)
             nextLoanId := st.nextLoanId
             queue := st.queue } : State) pk
          = (findBook st pk).map (fun b =>
              if b.id = book.id then { b with available_copies := b.available_copies + 1 } else b) := by
        exact find?_map_comm _ _ (fun b => by by_cases h : b.id = book.id <;> simp [h]) _
      rw [h1, hfb]
      simp

/-- C2 counterexample: returning the concrete open loan issues two
separate statements; after the first alone — an observable, committed
point, since no transaction spans them — the loan is already marked
returned while the book's counter still reads 2: the state between the
two writes is neither the pre-state nor the post-state, refuting "applied
together or not at all (one atomic unit)". -/
theorem claim2_counterexample :
    (return_book demoLoaned ⟨105, 0⟩ 1 (some 1)).1 = .returned ∧
    (return_book demoLoaned ⟨105, 0⟩ 1 (some 1)).2
      = applyWrite (applyWrite demoLoaned (.loanMarkReturned 1 105)) (.bookIncrement 1) ∧
    (findLoan (applyWrite demoLoaned (.loanMarkReturned 1 105)) 1).map Loan.is_returned
      = some true ∧
    (findBook (applyWrite demoLoaned (.loanMarkReturned 1 105)) 1).map Book.available_copies
      = some 2 ∧
    ¬ applyWrite demoLoaned (.loanMarkReturned 1 105) = demoLoaned ∧
    ¬ applyWrite demoLoaned (.loanMarkReturned 1 105)
        = (return_book demoLoaned ⟨105, 0⟩ 1 (some 1)).2 := by
  decide

/-- C2 witness: the amended claim evaluated on the loaned store at day
105: the unique open loan is found, updated by the first statement and
the counter incremented by the second, ending with the counter back at 3.
-/
theorem claim2_return_loan_witness :
    return_book demoLoaned ⟨105, 0⟩ 1 (some 1)
      = (.returned, (return_book_writes 1 1 105).foldl applyWrite demoLoaned) ∧
    findBook (return_book demoLoaned ⟨105, 0⟩ 1 (some 1)).2 1
      = some { id := 1, title := "Dune", total_copies := 3, available_copies := 3 } := by
  have h := (claim2_return_loan demoLoaned ⟨105, 0⟩ 1 (some 1)
      { id := 1, title := "Dune", total_copies := 3, available_copies := 2 } rfl).2
      { id := 1, book_id := 1, member_id := 1, loan_date := 100, due_date := 114,
        is_returned := false, return_date := none }
      (by decide) rfl
  exact ⟨h.1, h.2.2.2⟩

/-- C3 (confirmed): starting from a well-formed store whose tracked book
has `available_copies = total_copies` and no open loans, after every
prefix of any sequence of loan/return operations on that book the
counter equals total copies minus the open-loan count and stays within
`[0, total_copies]` (that is what `bookConservedB` states). -/
theorem claim3_inventory_conservation (st : State) (pk : Nat) (b : Book) (ops : List Op)
    (hwf : WF st) (hfb : findBook st pk = some b)
    (hinit : b.available_copies = b.total_copies) (htot : 0 ≤ b.total_copies)
    (hopen : openCount st pk = 0) (hops : ∀ op ∈ ops, opOnBook pk op) :
    ∀ n, bookConservedB (runOps st (ops.take n)) pk b.total_copies = true := by
  have hc : bookConservedB st pk b.total_copies = true := by
    unfold bookConservedB
    rw [hfb, hopen]
    simp [bookOKb, hinit]
    exact htot
  intro n
  exact (conserved_run ops st pk b.total_copies hops hwf hc n).2

/-- C3 witness: on the fresh store (3 of 3 copies, no loans), after the
prefixes of [loan, loan, return] on book 1 at days 100, 101, 105, the
conservation invariant holds — e.g. after all three operations. -/
theorem claim3_inventory_conservation_witness :
    bookConservedB
      (runOps demoState
        ([.createLoan ⟨100, 0⟩ 1 (some 1), .createLoan ⟨101, 0⟩ 1 (some 1),
          .returnLoan ⟨105, 0⟩ 1 (some 1)].take 3)) 1 3 = true := by
  have h := claim3_inventory_conservation demoState 1
      { id := 1, title := "Dune", total_copies := 3, available_copies := 3 }
      [.createLoan ⟨100, 0⟩ 1 (some 1), .createLoan ⟨101, 0⟩ 1 (some 1),
        .returnLoan ⟨105, 0⟩ 1 (some 1)]
      (by decide) rfl (by decide) (by decide) (by decide) (by decide)
  exact h 3

/-- C4 (code_bug): `ExtendDueDate` does reject an already-returned loan,
but for every loan that is still open the view crashes before any other
check: `loan.due_date` is a calendar date and `timezone.now()` a
datetime, so the guard `loan.due_date < timezone.now()` raises an
uncaught `TypeError` — the request ends in a server error for every
`additionalDays` value, never in `AlreadyOverdue`, `InvalidInput` or a
successful extension, and the store is unchanged. -/
theorem claim4_extend_due_date (st : State) (now : DateTime) (i : Nat)
    (days : ReqValue) (loan : Loan) (hfl : findLoan st i = some loan) :
    (loan.is_returned = true → extend_due_date st now i days = (.alreadyReturned, st)) ∧
    (loan.is_returned = false → extend_due_date st now i days = (.typeErrorDateCompare, st)) :=
  ⟨fun hr => extend_returned st now i days loan hfl hr,
   fun hr => extend_open_typeerror st now i days loan hfl hr⟩

/-- C4 witness: the failing input evaluated: extending the open concrete
loan (due day 114, well after day 105, with a valid 5-day request) dies
with the date/datetime `TypeError` instead of extending to day 119. -/
theorem claim4_extend_due_date_witness :
    extend_due_date demoLoaned ⟨105, 0⟩ 1 (.pyInt 5)
      = (.typeErrorDateCompare, demoLoaned) := by
  have h := claim4_extend_due_date demoLoaned ⟨105, 0⟩ 1 (.pyInt 5)
      { id := 1, book_id := 1, member_id := 1, loan_date := 100, due_date := 114,
        is_returned := false, return_date := none } rfl
  exact h.2 rfl

/-- C5 (code_bug): the beat schedule does hold exactly one recurring
trigger, firing daily at 00:00 with no arguments — but the task name it
invokes, `library.tasks.send_overdue_notification`, is not a task the
code defines; in particular it is not the overdue-loan check task
`library.tasks.check_overdue_loans`, which is defined but never
scheduled. -/
theorem claim5_schedule_misconfigured :
    beat_schedule.length = 1 ∧
    beat_schedule.map (fun e => (e.hour, e.minute)) = [(0, 0)] ∧
    beat_schedule.map BeatEntry.task = ["library.tasks.send_overdue_notification"] ∧
    beat_schedule.all (fun e => !registered_tasks.contains e.task) = true ∧
    registered_tasks.contains "library.tasks.check_overdue_loans" = true := by
  decide

/-- C6 (confirmed): one scanner run selects exactly the stored loans with
`due_date < now` and `returned = false`, reports their number as the
total-overdue count, and reports as sent the number of selected loans
that passed validation and whose mail went out; on the spec's three-loan
example (due now−1 open, due now−1 returned, due now+1 open) it selects
exactly the first. -/
theorem claim6_scanner_selection :
    (∀ (st : State) (now : DateTime) (mail : Nat → MailResult),
      (∀ l : Loan, l ∈ overdueSelection st now ↔
        l ∈ st.loans ∧ l.due_date < now.day ∧ l.is_returned = false) ∧
      (check_overdue_loans st now mail).total_overdue_loans
        = (overdueSelection st now).length ∧
      (check_overdue_loans st now mail).notifications_sent
        = ((overdueSelection st now).filter
            (fun l => scanValid st l && decide (mail l.id = .ok))).length) ∧
    (overdueSelection scanState ⟨10, 0⟩).map Loan.id = [1] ∧
    check_overdue_loans scanState ⟨10, 0⟩ (fun _ => .ok)
      = { total_overdue_loans := 1, notifications_sent := 1, sentLog := [1] } := by
  refine ⟨fun st now mail => ⟨?_, ?_, ?_⟩, by decide, by decide⟩
  · intro l
    unfold overdueSelection overduePred
    rw [List.mem_filter]
    simp
  · rw [check_overdue_loans_eq]
  · rw [check_overdue_loans_eq]

/-- C7 (code_bug): the decorator asks for 1 + 3 attempts 60 seconds
apart, and a final failure is only logged — the enqueuer never sees it
(`loanAction` does not even take a mail outcome). But `bind=True` on a
function whose signature has no `self` makes every execution die binding
its arguments: whatever the mail collaborator would do, all 4 task
attempts raise before reaching it, 0 mail sends happen, and the
notification is never delivered. -/
theorem claim7_dispatch_bind_bug (st : State) (loan_id : Nat)
    (mail : Nat → MailResult) :
    taskAttempt st loan_id (mail 0) = (true, 0) ∧
    send_loan_notification_dispatch st loan_id mail
      = { taskAttempts := 4, mailSends := 0, attemptTimes := [0, 60, 120, 180],
          delivered := false } :=
  ⟨rfl, rfl⟩

/-- C8 (confirmed): after every prefix of any operation sequence run at
non-decreasing days from a valid store, every stored loan satisfies:
returned implies a return date not before its loan date, open implies no
return date (`StateConsistent`). -/
theorem claim8_loan_state_validity (ops : List Op) (st : State) (t : Nat)
    (hchain : List.Chain' (· ≤ ·) (t :: ops.map opDay))
    (hc : StateConsistent st t) :
    ∀ n, StateConsistent (runOps st (ops.take n)) (lastDay t (ops.take n)) :=
  consistent_run ops st t hchain hc

/-- C8 witness: loan on day 100, return on day 105, extend attempt on day
106, from the fresh store: validity holds after the full sequence. -/
theorem claim8_loan_state_validity_witness :
    StateConsistent
      (runOps demoState
        ([.createLoan ⟨100, 0⟩ 1 (some 1), .returnLoan ⟨105, 0⟩ 1 (some 1),
          .extendLoan ⟨106, 0⟩ 1 (.pyInt 5)].take 3))
      (lastDay 0
        ([.createLoan ⟨100, 0⟩ 1 (some 1), .returnLoan ⟨105, 0⟩ 1 (some 1),
          .extendLoan ⟨106, 0⟩ 1 (.pyInt 5)].take 3)) := by
  have h := claim8_loan_state_validity
      [.createLoan ⟨100, 0⟩ 1 (some 1), .returnLoan ⟨105, 0⟩ 1 (some 1),
        .extendLoan ⟨106, 0⟩ 1 (.pyInt 5)]
      demoState 0 (by simp [List.chain'_cons, opDay]) (by decide)
  exact h 3

/-- The mail collaborator failing (only) for the loan with id `k`. -/
def failAt (k : Nat) (mail : Nat → MailResult) : Nat → MailResult :=
  fun i => if i = k then .retryableError else mail i

/-- C9 (confirmed): a delivery failure on one selected loan — and
likewise the skip of a loan with missing member/user/address, which
`scanValid` captures — does not abort the run: the scanner still reports
the full selected count, and every other selected loan that validates and
whose mail succeeds is still sent and logged. -/
theorem claim9_partial_failure_isolation (st : State) (now : DateTime)
    (mail : Nat → MailResult) (k : Nat) :
    (check_overdue_loans st now (failAt k mail)).total_overdue_loans
        = (overdueSelection st now).length ∧
    (∀ l ∈ overdueSelection st now, l.id ≠ k → scanValid st l = true →
      mail l.id = .ok →
      l.id ∈ (check_overdue_loans st now (failAt k mail)).sentLog) := by
  rw [check_overdue_loans_eq]
  refine ⟨rfl, ?_⟩
  intro l hl hne hv hok
  show l.id ∈ ((overdueSelection st now).filter
      (fun l => scanValid st l && decide (failAt k mail l.id = .ok))).map Loan.id
  apply List.mem_map.mpr
  refine ⟨l, List.mem_filter.mpr ⟨hl, ?_⟩, rfl⟩
  simp [failAt, hne, hok, hv]

/-- C10 (confirmed): a successful return changes only the found loan's
returned flag and return date and the book's counter: members, the
notification queue, the key sequence, every other loan row and every
other book row are unchanged, and the updated loan keeps its loan date,
due date and book/member references (the structure-update literal fixes
them). -/
theorem claim10_return_frame (st : State) (now : DateTime) (pk : Nat) (m : Option Nat)
    (book : Book) (loan : Loan)
    (hfb : findBook st pk = some book)
    (hg : getUnique (activeLoanPred pk m) st.loans = .one loan) :
    (return_book st now pk m).1 = .returned ∧
    (return_book st now pk m).2.members = st.members ∧
    (return_book st now pk m).2.queue = st.queue ∧
    (return_book st now pk m).2.nextLoanId = st.nextLoanId ∧
    (return_book st now pk m).2.loans.length = st.loans.length ∧
    (return_book st now pk m).2.books.length = st.books.length ∧
    (∀ l ∈ st.loans, l.id ≠ loan.id → l ∈ (return_book st now pk m).2.loans) ∧
    { loan with is_returned := true, return_date := some now.day }
      ∈ (return_book st now pk m).2.loans ∧
    (∀ b ∈ st.books, b.id ≠ book.id → b ∈ (return_book st now pk m).2.books) ∧
    { book with available_copies := book.available_copies + 1 }
      ∈ (return_book st now pk m).2.books := by
  rw [return_book_success st now pk m book loan hfb hg]
  obtain ⟨hmem, _⟩ := getUnique_one_mem hg
  have hbmem : book ∈ st.books := List.mem_of_find?_eq_some hfb
  refine ⟨rfl, rfl, rfl, rfl, by simp, by simp, ?_, ?_, ?_, ?_⟩
  · intro l hl hne
    exact List.mem_map.mpr ⟨l, hl, by simp [hne]⟩
  · exact List.mem_map.mpr ⟨loan, hmem, by simp⟩
  · intro b hb hne
    exact List.mem_map.mpr ⟨b, hb, by simp [hne]⟩
  · exact List.mem_map.mpr ⟨book, hbmem, by simp⟩

/-- C10 witness: the frame conditions evaluated on the loaned store at
day 105: response, untouched queue, and the two updated rows. -/
theorem claim10_return_frame_witness :
    (return_book demoLoaned ⟨105, 0⟩ 1 (some 1)).1 = .returned ∧
    (return_book demoLoaned ⟨105, 0⟩ 1 (some 1)).2.queue = [1] ∧
    ({ id := 1, book_id := 1, member_id := 1, loan_date := 100, due_date := 114,
       is_returned := true, return_date := some 105 } : Loan)
      ∈ (return_book demoLoaned ⟨105, 0⟩ 1 (some 1)).2.loans := by
  have h := claim10_return_frame demoLoaned ⟨105, 0⟩ 1 (some 1)
      { id := 1, title := "Dune", total_copies := 3, available_copies := 2 }
      { id := 1, book_id := 1, member_id := 1, loan_date := 100, due_date := 114,
        is_returned := false, return_date := none }
      rfl rfl
  exact ⟨h.1, h.2.2.1, h.2.2.2.2.2.2.2.1⟩

end Library
